import Mathlib

/-!
Shallow embedding of the liver-segmentation inference pipeline
(`neural_network/python_services/liver_segmentation`): the metrics engine
(`metrics.py`), mask post-processing, volume metrics, slice summarisation and
result persistence (`inference.py`), and the DICOM loading dispatch
(`preprocessing.py`).

Modelling conventions:
* numpy arrays are flattened `List ℚ` (every operation the claims touch is
  elementwise or a whole-array reduction); 3-D volumes are `List (List ℚ)`,
  a list of flattened slices; the binary mask produced by post-processing is
  `List (List Bool)`.
* Python floats are modelled as `ℚ`; `round(x, n)` is modelled as rounding
  `x * 10 ^ n` to the nearest integer (Python rounds float ties to even; no
  statement below sits on a tie).
* Effects are explicit parameters: the neural model `predict` is a function
  argument, `uuid.uuid4().hex` is a string argument, wall-clock durations are
  numeric arguments, and the filesystem seen by the loader is the inductive
  `FSPath`.  Filesystem paths are lists of components.
-/

/-- Default smoothing constant: `smooth: float = 1e-7` in `metrics.py`. -/
def smoothDefault : ℚ := 1 / 10000000

/-- One element of the `(x > 0).astype(np.float32)` binarisation. -/
def binQ (v : ℚ) : ℚ := if 0 < v then 1 else 0

/-- `(arr > 0).astype(np.float32)` on a flattened array. -/
def binarize (xs : List ℚ) : List ℚ := xs.map binQ

/-- `round(x, p)`: rounding to `p` decimal places. -/
def roundTo (p : ℕ) (x : ℚ) : ℚ := (round (x * 10 ^ p) : ℤ) / 10 ^ p

/-- Denominator of `calculate_dice`: `gt_size + pred_size + smooth`. -/
def diceDen (ground_truth prediction : List ℚ) (smooth : ℚ) : ℚ :=
  (binarize ground_truth).sum + (binarize prediction).sum + smooth

/-- `calculate_dice` from `metrics.py`:
`(2.0 * intersection + smooth) / (gt_size + pred_size + smooth)`
on the `> 0`-binarised inputs, with `intersection = np.sum(gt * pred)`. -/
def calculate_dice (ground_truth prediction : List ℚ) (smooth : ℚ) : ℚ :=
  (2 * (List.zipWith (· * ·) (binarize ground_truth) (binarize prediction)).sum + smooth) /
    diceDen ground_truth prediction smooth

/-- Denominator of `calculate_iou`: `union + smooth` with
`union = np.sum(gt) + np.sum(pred) - intersection`. -/
def iouDen (ground_truth prediction : List ℚ) (smooth : ℚ) : ℚ :=
  (binarize ground_truth).sum + (binarize prediction).sum -
    (List.zipWith (· * ·) (binarize ground_truth) (binarize prediction)).sum + smooth

/-- `calculate_iou` from `metrics.py`: `(intersection + smooth) / (union + smooth)`. -/
def calculate_iou (ground_truth prediction : List ℚ) (smooth : ℚ) : ℚ :=
  ((List.zipWith (· * ·) (binarize ground_truth) (binarize prediction)).sum + smooth) /
    iouDen ground_truth prediction smooth

/-- Denominator of `calculate_sensitivity`: `true_positive + false_negative + smooth`,
where `true_positive = np.sum(gt * pred)` and `false_negative = np.sum(gt * (1 - pred))`. -/
def sensDen (ground_truth prediction : List ℚ) (smooth : ℚ) : ℚ :=
  (List.zipWith (· * ·) (binarize ground_truth) (binarize prediction)).sum +
    (List.zipWith (fun a b => a * (1 - b)) (binarize ground_truth) (binarize prediction)).sum +
    smooth

/-- `calculate_sensitivity` from `metrics.py`. -/
def calculate_sensitivity (ground_truth prediction : List ℚ) (smooth : ℚ) : ℚ :=
  ((List.zipWith (· * ·) (binarize ground_truth) (binarize prediction)).sum + smooth) /
    sensDen ground_truth prediction smooth

/-- Denominator of `calculate_specificity`: `true_negative + false_positive + smooth`,
where `true_negative = np.sum((1 - gt) * (1 - pred))` and
`false_positive = np.sum((1 - gt) * pred)`. -/
def specDen (ground_truth prediction : List ℚ) (smooth : ℚ) : ℚ :=
  (List.zipWith (fun a b => (1 - a) * (1 - b)) (binarize ground_truth)
      (binarize prediction)).sum +
    (List.zipWith (fun a b => (1 - a) * b) (binarize ground_truth) (binarize prediction)).sum +
    smooth

/-- `calculate_specificity` from `metrics.py`. -/
def calculate_specificity (ground_truth prediction : List ℚ) (smooth : ℚ) : ℚ :=
  ((List.zipWith (fun a b => (1 - a) * (1 - b)) (binarize ground_truth)
      (binarize prediction)).sum + smooth) /
    specDen ground_truth prediction smooth

/-- Denominator of `calculate_pixel_accuracy`: `total = gt.size` (no smoothing). -/
def pixelAccDen (ground_truth : List ℚ) : ℚ := (ground_truth.length : ℚ)

/-- `calculate_pixel_accuracy` from `metrics.py`:
`np.sum(gt == pred) / gt.size` on the binarised inputs. -/
def calculate_pixel_accuracy (ground_truth prediction : List ℚ) : ℚ :=
  (List.zipWith (fun a b => if a = b then (1 : ℚ) else 0) (binarize ground_truth)
      (binarize prediction)).sum /
    pixelAccDen ground_truth

/-- `np.sum(mask > 0)`: the number of strictly positive entries. -/
def countPos (xs : List ℚ) : ℕ := xs.countP (fun v => decide (0 < v))

/-- Value type for entries of the Python metric dictionaries. -/
inductive MVal
  | num (q : ℚ)
  | int (n : ℕ)
  | bool (b : Bool)
  | str (s : String)
  | spacing (t : ℚ × ℚ × ℚ)
deriving DecidableEq, Repr

/-- `calculate_volume` from `metrics.py`: voxel count, `volume_mm3` and
`volume_ml` (both rounded to two decimals), with
`voxel_volume = np.prod(spacing)`. -/
def calculate_volume (mask : List ℚ) (spacing : ℚ × ℚ × ℚ) : List (String × MVal) :=
  let voxel_volume := spacing.1 * spacing.2.1 * spacing.2.2
  let voxel_count := countPos mask
  let volume_mm3 := (voxel_count : ℚ) * voxel_volume
  let volume_ml := volume_mm3 / 1000
  [("volume_ml", MVal.num (roundTo 2 volume_ml)),
   ("volume_mm3", MVal.num (roundTo 2 volume_mm3)),
   ("voxel_count", MVal.int voxel_count)]

/-- Default of the `spacing` parameter of `calculate_all_metrics` and
`calculate_volume`: `(1.0, 1.0, 1.0)`. -/
def defaultSpacing : ℚ × ℚ × ℚ := (1, 1, 1)

/-- `calculate_all_metrics` from `metrics.py`: the five ratio metrics rounded
to six decimals, merged with the volume metrics of the prediction, plus
`meets_clinical_standards` and the `quality_grade` ladder, in the insertion
order of the source dictionary. -/
def calculate_all_metrics (ground_truth prediction : List ℚ)
    (spacing : ℚ × ℚ × ℚ) : List (String × MVal) :=
  let dice := roundTo 6 (calculate_dice ground_truth prediction smoothDefault)
  let iou := roundTo 6 (calculate_iou ground_truth prediction smoothDefault)
  let sens := roundTo 6 (calculate_sensitivity ground_truth prediction smoothDefault)
  let spec := roundTo 6 (calculate_specificity ground_truth prediction smoothDefault)
  let pacc := roundTo 6 (calculate_pixel_accuracy ground_truth prediction)
  let meets : Bool := decide (dice ≥ 9/10) && decide (iou ≥ 9/10)
  let grade : String :=
    if dice ≥ 9/10 then "Excellent"
    else if dice ≥ 8/10 then "Good"
    else if dice ≥ 7/10 then "Fair"
    else "Poor"
  [("dice", MVal.num dice), ("iou", MVal.num iou), ("sensitivity", MVal.num sens),
   ("specificity", MVal.num spec), ("pixel_accuracy", MVal.num pacc)] ++
    calculate_volume prediction spacing ++
    [("meets_clinical_standards", MVal.bool meets), ("quality_grade", MVal.str grade)]

/-! Mask post-processing and the binary-mask view (`inference.py`). -/

/-- `postprocess_mask` from `inference.py`.  The source only performs
`(mask > 0.5).astype(np.uint8)`; the connected-component filter driven by
`min_volume_voxels`, the hole filling and the boundary smoothing are `TODO`
comments, so the parameter is accepted and ignored, exactly as in the code. -/
def postprocess_mask (mask : List (List ℚ)) (min_volume_voxels : ℕ) : List (List Bool) :=
  let _ := min_volume_voxels
  mask.map (List.map (fun v => decide ((1 : ℚ)/2 < v)))

/-- The `uint8` 0/1 array a `List (List Bool)` mask denotes. -/
def maskToVol (mask : List (List Bool)) : List (List ℚ) :=
  mask.map (List.map (fun b => if b then (1 : ℚ) else 0))

/-- The flattened 0/1 array of a binary mask (as handed to the metric engine). -/
def maskToArr (mask : List (List Bool)) : List ℚ := (maskToVol mask).flatten

/-- Total number of foreground voxels of a binary mask. -/
def maskForeground (mask : List (List Bool)) : ℕ := (mask.map (List.count true)).sum

/-! Slice summarisation (`extract_contours` in `inference.py`). -/

/-- One record of `contours['slices']`. -/
structure SliceRecord where
  slice_index : ℕ
  has_liver : Bool
  liver_area : ℕ
deriving DecidableEq, Repr

/-- The `contours` structure returned by `extract_contours`. -/
structure ContourData where
  format : String
  slices : List SliceRecord
deriving DecidableEq, Repr

/-- The index list of Python `range(0, stop, step)` for `step > 0`:
`0, step, 2*step, …` strictly below `stop`. -/
def pyRange (stop step : ℕ) : List ℕ :=
  (List.range ((stop + step - 1) / step)).map (· * step)

/-- Body of the sampling loop of `extract_contours`: slice `i` is skipped when
`np.sum(slice_mask) == 0`, otherwise it contributes
`{slice_index: i, has_liver: bool(np.any(slice)), liver_area: int(np.sum(slice))}`
(on a binary slice, `np.sum` is the number of `true` entries). -/
def sliceFor (mask : List (List Bool)) (i : ℕ) : Option SliceRecord :=
  match mask.get? i with
  | some s => if s.count true = 0 then none else some ⟨i, s.any id, s.count true⟩
  | none => none

/-- `extract_contours` from `inference.py`: `num_slices` defaults to the depth,
the stride is `max(1, depth // num_slices)`, and the loop is
`for i in range(0, depth, step)`.  (The `if i >= depth: break` guard in the
source is dead code: `range` never reaches `depth`.)  On an empty mask with the
default `num_slices`, the Python source divides by zero; no claim reaches that
state, and `ℕ` division renders it as an empty summary. -/
def extract_contours (mask : List (List Bool)) (num_slices : Option ℕ) : ContourData :=
  let ns := num_slices.getD mask.length
  let step := max 1 (mask.length / ns)
  { format := "json", slices := (pyRange mask.length step).filterMap (sliceFor mask) }

/-! Volume metrics, result ids and persistence (`inference.py`). -/

/-- `calculate_volume_metrics` from `inference.py`: volume metrics computed from
`metadata.get('spacing', (1.0, 1.0, 1.0))`, returned together with the
`spacing` entry itself. -/
def calculate_volume_metrics (mask : List ℚ) (metadata_spacing : Option (ℚ × ℚ × ℚ)) :
    List (String × MVal) :=
  let sp := metadata_spacing.getD (1, 1, 1)
  let voxel_volume := sp.1 * sp.2.1 * sp.2.2
  let liver_voxels := countPos mask
  let volume_mm3 := (liver_voxels : ℚ) * voxel_volume
  let volume_ml := volume_mm3 / 1000
  [("volume_ml", MVal.num (roundTo 2 volume_ml)),
   ("volume_mm3", MVal.num (roundTo 2 volume_mm3)),
   ("voxel_count", MVal.int liver_voxels),
   ("spacing", MVal.spacing sp)]

/-- `generate_result_id` from `inference.py`: `f"seg_{uuid.uuid4().hex[:12]}"`,
with the random `uuid.uuid4().hex` draw made an explicit argument. -/
def generate_result_id (uuidHex : String) : String :=
  "seg_" ++ ⟨uuidHex.data.take 12⟩

/-- `save_results` from `inference.py`: the three artifacts written under
`<output_dir>/<result_id>/`, returned as the `paths` mapping in insertion
order.  A filesystem path is its list of components. -/
def save_results (output_dir : List String) (result_id : String) :
    List (String × List String) :=
  [("mask_npy", output_dir ++ [result_id, "mask.npy"]),
   ("contours_json", output_dir ++ [result_id, "contours.json"]),
   ("metrics_json", output_dir ++ [result_id, "metrics.json"])]

/-! DICOM loading (`preprocessing.py`). -/

/-- `np.clip(v, lo, hi)` on one element. -/
def clipQ (lo hi v : ℚ) : ℚ := min (max v lo) hi

/-- `normalize_hounsfield_units` from `preprocessing.py`: clip to the window
`[center - width/2, center + width/2]`, then rescale linearly to `[0, 1]`. -/
def normalize_hounsfield_units (volume : List (List ℚ)) (window_center window_width : ℚ) :
    List (List ℚ) :=
  let min_hu := window_center - window_width / 2
  let max_hu := window_center + window_width / 2
  volume.map (List.map (fun v => (clipQ min_hu max_hu v - min_hu) / (max_hu - min_hu)))

/-- The metadata record assembled by `DicomPreprocessor.extract_metadata`. -/
structure Metadata where
  patient_id : String
  study_date : String
  modality : String
  rows : ℕ
  columns : ℕ
  spacing : ℚ × ℚ × ℚ
  window_center : ℚ
  window_width : ℚ
deriving DecidableEq, Repr

/-- The attributes of a parsed `pydicom` dataset that the loader reads.
`pixel_array` is the list of frames of the file (one frame for a plain
single-slice file), each frame flattened. -/
structure Dataset where
  pixel_array : List (List ℚ)
  rescale : Option (ℚ × ℚ)
  patient_id : Option String
  study_date : Option String
  modality : Option String
  rows : Option ℕ
  columns : Option ℕ
  pixel_spacing : Option (ℚ × ℚ)
  slice_thickness : Option ℚ
  window_center : Option ℚ
  window_width : Option ℚ
deriving DecidableEq, Repr

/-- `rescaled = raw * slope + intercept` when both rescale attributes are
present, else the raw pixels. -/
def applyRescale (ds : Dataset) : List (List ℚ) :=
  match ds.rescale with
  | some si => ds.pixel_array.map (List.map (fun v => v * si.1 + si.2))
  | none => ds.pixel_array

/-- `DicomPreprocessor.extract_metadata`: each field via `getattr` with the
source's defaults; spacing is `(SliceThickness, PixelSpacing[0], PixelSpacing[1])`. -/
def extract_metadata (wc ww : ℚ) (ds : Dataset) : Metadata :=
  { patient_id := ds.patient_id.getD "UNKNOWN"
    study_date := ds.study_date.getD ""
    modality := ds.modality.getD "CT"
    rows := ds.rows.getD 512
    columns := ds.columns.getD 512
    spacing := (ds.slice_thickness.getD 1, (ds.pixel_spacing.getD (1, 1)).1,
      (ds.pixel_spacing.getD (1, 1)).2)
    window_center := ds.window_center.getD wc
    window_width := ds.window_width.getD ww }

/-- One entry of `sorted(directory.iterdir())`: a file `dcmread` accepts, a file
it rejects (skipped by the `continue`), or a non-file entry (skipped by the
`is_file()` test). -/
inductive FSEntry
  | pfile (ds : Dataset)
  | badfile
  | notfile
deriving DecidableEq, Repr

/-- What a loader path resolves to: a single file (with its parse result), a
directory (with its sorted entries), or nothing. -/
inductive FSPath
  | file (ds : Option Dataset)
  | dir (entries : List FSEntry)
  | missing
deriving DecidableEq, Repr

/-- The error taxonomy of the loader: `FileNotFoundError`, the
`ValueError("No valid DICOM files found …")` of an empty series, and the
`InvalidDicomError` a malformed single file raises out of `load_single_dicom`. -/
inductive LoadError
  | notFound
  | emptySeries
  | invalidFile
deriving DecidableEq, Repr

/-- The datasets of the parseable files of a directory, in sorted order. -/
def parseableFiles (entries : List FSEntry) : List Dataset :=
  entries.filterMap (fun e => match e with | .pfile ds => some ds | _ => none)

/-- `DicomPreprocessor.load_single_dicom`: rescale, extract metadata, normalize;
with `pydicom` missing, fall back to the mock volume and metadata.  The mock
volume is random in the source, so it is an explicit argument here. -/
def load_single_dicom (backend : Bool) (mockV : List (List ℚ)) (mockMd : Metadata)
    (wc ww : ℚ) (ds : Option Dataset) : Except LoadError (List (List ℚ) × Metadata) :=
  if backend then
    match ds with
    | some d =>
        Except.ok (normalize_hounsfield_units (applyRescale d) wc ww, extract_metadata wc ww d)
    | none => Except.error LoadError.invalidFile
  else Except.ok (mockV, mockMd)

/-- `DicomPreprocessor.load_dicom_series`: keep the parseable files in sorted
order; raise when none remain; else take the metadata from the first file,
stack the rescaled slices and normalize.  With `pydicom` missing, fall back to
the mock data before any file is touched. -/
def load_dicom_series (backend : Bool) (mockV : List (List ℚ)) (mockMd : Metadata)
    (wc ww : ℚ) (entries : List FSEntry) : Except LoadError (List (List ℚ) × Metadata) :=
  if backend then
    match parseableFiles entries with
    | [] => Except.error LoadError.emptySeries
    | first :: rest =>
        let metadata := extract_metadata wc ww first
        let slices := (first :: rest).map (fun ds => (applyRescale ds).flatten)
        Except.ok (normalize_hounsfield_units slices wc ww, metadata)
  else Except.ok (mockV, mockMd)

/-- `DicomPreprocessor.load_dicom`: dispatch on what the path resolves to;
a path that is neither a file nor a directory raises `FileNotFoundError`. -/
def load_dicom (backend : Bool) (mockV : List (List ℚ)) (mockMd : Metadata)
    (wc ww : ℚ) : FSPath → Except LoadError (List (List ℚ) × Metadata)
  | FSPath.file ds => load_single_dicom backend mockV mockMd wc ww ds
  | FSPath.dir entries => load_dicom_series backend mockV mockMd wc ww entries
  | FSPath.missing => Except.error LoadError.notFound

/-- `DicomPreprocessor.create_mock_metadata` (the deterministic half of the
fallback). -/
def mockMetadata : Metadata :=
  { patient_id := "MOCK_PATIENT", study_date := "20240101", modality := "CT"
    rows := 512, columns := 512, spacing := (3/2, 1, 1)
    window_center := 40, window_width := 400 }

/-! The inference orchestrator (`inference.py`). -/

/-- Value type for entries of the result dictionary a `segment_*` call returns. -/
inductive RVal
  | mask (m : List (List Bool))
  | contours (c : ContourData)
  | metrics (m : List (String × MVal))
  | nat (n : ℕ)
  | paths (p : List (String × List String))
  | meta (md : Metadata)
  | str (s : String)
deriving DecidableEq, Repr

/-- The body of `segment_from_dicom` after the volume and metadata have been
loaded: predict, post-process (with the default `min_volume_voxels=1000`),
compute full metrics against the ground truth when one is supplied — the
`spacing` argument of `calculate_all_metrics` is NOT passed, so its default
applies — else volume-only metrics from the metadata spacing; then summarize
slices, generate the result id, persist, and assemble the result dictionary
in the source's key order.  The timer readings and the uuid draw are explicit
arguments. -/
def segment_from_dicom (predict : List (List ℚ) → List (List ℚ))
    (volume : List (List ℚ)) (metadata : Metadata) (ground_truth : Option (List ℚ))
    (uuidHex : String) (inference_time_ms total_time_ms : ℕ)
    (output_dir : List String) : List (String × RVal) :=
  let mask := postprocess_mask (predict volume) 1000
  let metrics : List (String × MVal) :=
    match ground_truth with
    | some gt => calculate_all_metrics gt (maskToArr mask) defaultSpacing
    | none => calculate_volume_metrics (maskToArr mask) (some metadata.spacing)
  let contours := extract_contours mask none
  let rid := generate_result_id uuidHex
  let output_paths := save_results output_dir rid
  [("result_id", RVal.str rid), ("mask", RVal.mask mask),
   ("contours", RVal.contours contours), ("metrics", RVal.metrics metrics),
   ("inference_time_ms", RVal.nat inference_time_ms),
   ("total_time_ms", RVal.nat total_time_ms),
   ("output_paths", RVal.paths output_paths), ("metadata", RVal.meta metadata)]

/-- `segment_from_dicom` including the loading step: any loader error aborts
the call and propagates; on success the body above runs. -/
def segment_from_dicom_path (backend : Bool) (mockV : List (List ℚ)) (mockMd : Metadata)
    (wc ww : ℚ) (predict : List (List ℚ) → List (List ℚ)) (p : FSPath)
    (ground_truth : Option (List ℚ)) (uuidHex : String)
    (inference_time_ms total_time_ms : ℕ) (output_dir : List String) :
    Except LoadError (List (String × RVal)) :=
  (load_dicom backend mockV mockMd wc ww p).map (fun vm =>
    segment_from_dicom predict vm.1 vm.2 ground_truth uuidHex
      inference_time_ms total_time_ms output_dir)

/-- `segment_from_numpy` from `inference.py`: normalize (liver window 40/400),
predict, post-process, volume-only metrics from the *given* spacing, summarize
slices — and return only the four keys of the source's result dictionary: no
result id, no persistence, no total time, no metadata. -/
def segment_from_numpy (predict : List (List ℚ) → List (List ℚ))
    (volume : List (List ℚ)) (spacing : ℚ × ℚ × ℚ) (inference_time_ms : ℕ) :
    List (String × RVal) :=
  let v := normalize_hounsfield_units volume 40 400
  let mask := postprocess_mask (predict v) 1000
  let metrics := calculate_volume_metrics (maskToArr mask) (some spacing)
  let contours := extract_contours mask none
  [("mask", RVal.mask mask), ("contours", RVal.contours contours),
   ("metrics", RVal.metrics metrics), ("inference_time_ms", RVal.nat inference_time_ms)]

/-- The metrics dictionary inside a result dictionary, when present. -/
def resultMetrics (r : List (String × RVal)) : Option (List (String × MVal)) :=
  match r.lookup "metrics" with
  | some (RVal.metrics m) => some m
  | _ => none

/-- The key list of the metrics dictionary inside a result dictionary. -/
def resultMetricsKeys (r : List (String × RVal)) : List String :=
  ((resultMetrics r).getD []).map Prod.fst

/-! Helper lemmas shared by the claim theorems. -/

lemma binQ_nonneg (v : ℚ) : 0 ≤ binQ v := by
  unfold binQ; split <;> norm_num

lemma binQ_le_one (v : ℚ) : binQ v ≤ 1 := by
  unfold binQ; split <;> norm_num

lemma binarize_sum_nonneg (g : List ℚ) : 0 ≤ (binarize g).sum := by
  refine List.sum_nonneg ?_
  intro x hx
  simp only [binarize, List.mem_map] at hx
  obtain ⟨v, -, rfl⟩ := hx
  exact binQ_nonneg v

lemma sum_zipWith_binarize_nonneg (f : ℚ → ℚ → ℚ)
    (hf : ∀ a b : ℚ, 0 ≤ f (binQ a) (binQ b)) :
    ∀ g p : List ℚ, 0 ≤ (List.zipWith f (binarize g) (binarize p)).sum
  | [], _ => by simp [binarize]
  | _ :: _, [] => by simp [binarize]
  | a :: g, b :: p => by
      simp only [binarize, List.map_cons, List.zipWith_cons_cons, List.sum_cons]
      exact add_nonneg (hf a b) (sum_zipWith_binarize_nonneg f hf g p)

lemma inter_sum_le_right : ∀ g p : List ℚ,
    (List.zipWith (· * ·) (binarize g) (binarize p)).sum ≤ (binarize p).sum
  | [], p => by simpa using binarize_sum_nonneg p
  | _ :: _, [] => by simp [binarize]
  | a :: g, b :: p => by
      simp only [binarize, List.map_cons, List.zipWith_cons_cons, List.sum_cons]
      exact add_le_add (mul_le_of_le_one_left (binQ_nonneg b) (binQ_le_one a))
        (inter_sum_le_right g p)

lemma threshold_idemp (v : ℚ) :
    (decide ((1:ℚ)/2 < (if decide ((1:ℚ)/2 < v) = true then (1:ℚ) else 0)))
      = decide ((1:ℚ)/2 < v) := by
  simp only [decide_eq_true_eq]
  by_cases h : (1:ℚ)/2 < v
  · rw [if_pos h]
    simp only [decide_eq_decide]
    exact iff_of_true (by norm_num) h
  · rw [if_neg h]
    simp only [decide_eq_decide]
    exact iff_of_false (by norm_num) h

lemma mul_lt_ceil_iff {D step j : ℕ} (hstep : 0 < step) :
    j < (D + step - 1) / step ↔ j * step < D := by
  rw [Nat.lt_iff_add_one_le, Nat.le_div_iff_mul_le hstep, add_mul, one_mul]
  omega

lemma mem_pyRange {D step i : ℕ} (hstep : 0 < step) :
    i ∈ pyRange D step ↔ step ∣ i ∧ i < D := by
  unfold pyRange
  simp only [List.mem_map, List.mem_range]
  constructor
  · rintro ⟨j, hj, rfl⟩
    exact ⟨⟨j, mul_comm j step⟩, (mul_lt_ceil_iff hstep).1 hj⟩
  · rintro ⟨⟨j, rfl⟩, hi⟩
    exact ⟨j, (mul_lt_ceil_iff hstep).2 (by rwa [mul_comm]), mul_comm j step⟩

lemma pyRange_pairwise (D step : ℕ) (hstep : 0 < step) :
    (pyRange D step).Pairwise (· < ·) := by
  unfold pyRange
  exact (List.pairwise_lt_range _).map (· * step)
    (fun a b h => mul_lt_mul_of_pos_right h hstep)

lemma sliceFor_eq_some {mask : List (List Bool)} {i : ℕ} {r : SliceRecord} :
    sliceFor mask i = some r ↔
      (r.slice_index = i ∧ r.has_liver = true ∧
       ∃ s, mask.get? i = some s ∧ 0 < s.count true ∧ r.liver_area = s.count true) := by
  unfold sliceFor
  cases hm : mask.get? i with
  | none => simp
  | some s =>
    dsimp only
    by_cases hc : s.count true = 0
    · rw [if_pos hc]
      constructor
      · exact fun h => Option.noConfusion h
      · rintro ⟨-, -, s', hs', hpos, -⟩
        injection hs' with hs'
        subst hs'
        omega
    · rw [if_neg hc]
      have hmem : true ∈ s := List.count_pos_iff.mp (Nat.pos_of_ne_zero hc)
      have hany : s.any id = true := List.any_eq_true.mpr ⟨true, hmem, rfl⟩
      constructor
      · intro h
        injection h with h
        subst h
        exact ⟨rfl, hany, s, rfl, Nat.pos_of_ne_zero hc, rfl⟩
      · rintro ⟨hi, hl, s', hs', -, ha⟩
        injection hs' with hs'
        subst hs'
        cases r with
        | mk idx liver area =>
          dsimp only at hi hl ha
          subst hi; subst hl; subst ha
          rw [hany]

/-- Membership in the alphabet of `uuid4().hex`: the lowercase hex digits. -/
def isLowerHex (c : Char) : Bool :=
  ('0' <= c && c <= '9') || ('a' <= c && c <= 'f')

lemma path_ne_of_rid_ne {root : List String} {r1 r2 f g : String} (h : r1 ≠ r2) :
    root ++ [r1, f] ≠ root ++ [r2, g] := by
  intro he
  have h2 := List.append_cancel_left he
  simp only [List.cons.injEq] at h2
  exact h h2.1

/-- The 2×2×2 all-ones mask of the spec scenario, flattened. -/
def ones2x2x2 : List ℚ := List.replicate 8 1

/-- The 2×2×2 all-zeros mask of the spec scenario, flattened. -/
def zeros2x2x2 : List ℚ := List.replicate 8 0

/-! The claim theorems. -/

/-- C1: for every pair of ground-truth and prediction arrays and every
spacing, `calculate_all_metrics` grades by its reported dice — `Excellent`
at dice ≥ 0.90, else `Good` at ≥ 0.80, else `Fair` at ≥ 0.70, else `Poor` —
and reports `meets_clinical_standards` exactly when its reported dice and
iou are both ≥ 0.90. -/
theorem calculate_all_metrics_grading (ground_truth prediction : List ℚ)
    (spacing : ℚ × ℚ × ℚ) :
    ∃ d i : ℚ,
      (calculate_all_metrics ground_truth prediction spacing).lookup "dice"
        = some (MVal.num d) ∧
      (calculate_all_metrics ground_truth prediction spacing).lookup "iou"
        = some (MVal.num i) ∧
      (calculate_all_metrics ground_truth prediction spacing).lookup "quality_grade"
        = some (MVal.str (if d ≥ 9/10 then "Excellent" else if d ≥ 8/10 then "Good"
            else if d ≥ 7/10 then "Fair" else "Poor")) ∧
      (calculate_all_metrics ground_truth prediction spacing).lookup
          "meets_clinical_standards"
        = some (MVal.bool (decide (d ≥ 9/10) && decide (i ≥ 9/10))) ∧
      ((calculate_all_metrics ground_truth prediction spacing).lookup
          "meets_clinical_standards" = some (MVal.bool true) ↔
        (d ≥ 9/10 ∧ i ≥ 9/10)) := by
  refine ⟨roundTo 6 (calculate_dice ground_truth prediction smoothDefault),
    roundTo 6 (calculate_iou ground_truth prediction smoothDefault),
    rfl, rfl, rfl, rfl, ?_⟩
  have h : (calculate_all_metrics ground_truth prediction spacing).lookup
      "meets_clinical_standards"
      = some (MVal.bool
          (decide (roundTo 6 (calculate_dice ground_truth prediction smoothDefault) ≥ 9/10) &&
           decide (roundTo 6 (calculate_iou ground_truth prediction smoothDefault) ≥ 9/10))) :=
    rfl
  rw [h]
  simp

/-- C2 counterexample: a concrete no-ground-truth call whose metrics mapping
has the key list `[volume_ml, volume_mm3, voxel_count, spacing]` — four
entries, not "exactly the three volumetric fields" of the claim: the source's
`calculate_volume_metrics` also returns its `spacing` entry. -/
theorem segment_metrics_extra_spacing_key :
    resultMetricsKeys (segment_from_numpy (fun v => v) [[1]] (1, 1, 1) 0)
      = ["volume_ml", "volume_mm3", "voxel_count", "spacing"] ∧
    resultMetricsKeys (segment_from_numpy (fun v => v) [[1]] (1, 1, 1) 0)
      ≠ ["volume_ml", "volume_mm3", "voxel_count"] := by
  exact ⟨by decide, by decide⟩

/-- C2 (amended): every no-ground-truth call — `segment_from_dicom` with
`ground_truth = None` and every `segment_from_numpy` call — returns a metrics
mapping whose keys are exactly `volume_ml`, `volume_mm3`, `voxel_count` and
`spacing`, in that order, and in particular carries none of the
overlap/classification or grading fields. -/
theorem no_ground_truth_metrics_keys (predict : List (List ℚ) → List (List ℚ))
    (volume : List (List ℚ)) (metadata : Metadata) (spacing : ℚ × ℚ × ℚ)
    (uuidHex : String) (itms ttms itms2 : ℕ) (root : List String) :
    resultMetricsKeys
        (segment_from_dicom predict volume metadata none uuidHex itms ttms root)
      = ["volume_ml", "volume_mm3", "voxel_count", "spacing"] ∧
    resultMetricsKeys (segment_from_numpy predict volume spacing itms2)
      = ["volume_ml", "volume_mm3", "voxel_count", "spacing"] ∧
    ∀ k ∈ ["dice", "iou", "sensitivity", "specificity", "pixel_accuracy",
           "meets_clinical_standards", "quality_grade"],
      k ∉ (["volume_ml", "volume_mm3", "voxel_count", "spacing"] : List String) := by
  exact ⟨rfl, rfl, by decide⟩

/-- C3: when a ground truth is supplied, `segment_from_dicom` computes its
metrics as `calculate_all_metrics(ground_truth, mask)` with the *default*
spacing `(1.0, 1.0, 1.0)` — the spacing of the loaded metadata is never
passed, so the reported volumetrics are identical for any two metadata
records (any two scans), whatever their actual voxel spacing. -/
theorem segment_from_dicom_default_spacing (predict : List (List ℚ) → List (List ℚ))
    (volume : List (List ℚ)) (metadata metadata' : Metadata) (gt : List ℚ)
    (uuidHex uuidHex' : String) (itms ttms itms' ttms' : ℕ) (root root' : List String) :
    resultMetrics (segment_from_dicom predict volume metadata (some gt) uuidHex itms ttms root)
      = some (calculate_all_metrics gt
          (maskToArr (postprocess_mask (predict volume) 1000)) defaultSpacing) ∧
    resultMetrics (segment_from_dicom predict volume metadata (some gt) uuidHex itms ttms root)
      = resultMetrics
          (segment_from_dicom predict volume metadata' (some gt) uuidHex' itms' ttms' root') := by
  exact ⟨rfl, rfl⟩

/-- C4 counterexample: the probability field `[[1]]` holds a single foreground
voxel, a connected component of size `1 < 1000 = min_volume_voxels`, which the
claim requires removed (a claim-compliant output would be `[[false]]`); the
source's `postprocess_mask` keeps it, because the component filter, the hole
filling and the smoothing pass are unimplemented `TODO`s. -/
theorem postprocess_no_component_filter :
    postprocess_mask [[(1 : ℚ)]] 1000 = [[true]] ∧
    maskForeground (postprocess_mask [[(1 : ℚ)]] 1000) = 1 ∧
    (1 : ℕ) < 1000 ∧ [[true]] ≠ ([[false]] : List (List Bool)) := by
  have h : postprocess_mask [[(1 : ℚ)]] 1000 = [[true]] := by
    simp [postprocess_mask]
    norm_num
  refine ⟨h, ?_, by norm_num, by decide⟩
  rw [h]
  decide

/-- C4 (amended): `postprocess_mask` thresholds its input at 0.5 into a
binary array of the same spatial shape; the size-filtering, hole-filling and
boundary-smoothing refinements are currently identity passes (the
`min_volume_voxels` parameter is ignored), and the whole post-processing is
therefore idempotent: re-running it on its own (already clean) output, with
any threshold parameter, changes nothing. -/
theorem postprocess_mask_contract (field : List (List ℚ)) (k k' : ℕ) :
    (postprocess_mask field k).length = field.length ∧
    (∀ i : ℕ, ((postprocess_mask field k).get? i).map List.length
        = (field.get? i).map List.length) ∧
    (∀ v ∈ (maskToVol (postprocess_mask field k)).flatten, v = 0 ∨ v = 1) ∧
    postprocess_mask (maskToVol (postprocess_mask field k)) k' = postprocess_mask field k := by
  refine ⟨by simp [postprocess_mask], ?_, ?_, ?_⟩
  · intro i
    simp only [postprocess_mask, List.get?_map]
    cases field.get? i <;> simp
  · intro v hv
    simp only [maskToVol, postprocess_mask, List.map_map, List.mem_flatten,
      List.mem_map, Function.comp] at hv
    obtain ⟨l, ⟨row, -, rfl⟩, hvl⟩ := hv
    simp only [List.mem_map] at hvl
    obtain ⟨x, -, rfl⟩ := hvl
    simp only [Function.comp_apply]
    split <;> simp
  · simp only [postprocess_mask, maskToVol, List.map_map]
    congr 1
    funext row
    simp only [Function.comp_apply, List.map_map]
    refine List.map_congr_left fun v _ => ?_
    simp only [Function.comp_apply]
    exact threshold_idemp v

/-- C5 counterexample: a concrete `segment_from_numpy` call returns only the
four keys `mask`, `contours`, `metrics`, `inference_time_ms` — the claimed
`result_id`, `total_time_ms`, `output_paths` and `metadata` fields are
absent from that path's result. -/
theorem segment_from_numpy_missing_fields :
    (segment_from_numpy (fun v => v) [[1]] (1, 1, 1) 0).map Prod.fst
      = ["mask", "contours", "metrics", "inference_time_ms"] ∧
    "result_id" ∉ (segment_from_numpy (fun v => v) [[1]] (1, 1, 1) 0).map Prod.fst ∧
    "total_time_ms" ∉ (segment_from_numpy (fun v => v) [[1]] (1, 1, 1) 0).map Prod.fst ∧
    "output_paths" ∉ (segment_from_numpy (fun v => v) [[1]] (1, 1, 1) 0).map Prod.fst ∧
    "metadata" ∉ (segment_from_numpy (fun v => v) [[1]] (1, 1, 1) 0).map Prod.fst := by
  decide

/-- C5 (amended): every `segment_from_dicom` call returns the eight-field
result — result_id, mask, slice summary (`contours`), metrics,
inference_time_ms, total_time_ms, output_paths, metadata — while every
`segment_from_numpy` call returns only mask, contours, metrics and
inference_time_ms: the numpy path skips not just persistence but also the
result id, the total time and the metadata. -/
theorem segment_result_keys (predict : List (List ℚ) → List (List ℚ))
    (volume : List (List ℚ)) (metadata : Metadata) (ground_truth : Option (List ℚ))
    (uuidHex : String) (itms ttms itms2 : ℕ) (root : List String)
    (spacing : ℚ × ℚ × ℚ) :
    (segment_from_dicom predict volume metadata ground_truth uuidHex itms ttms root).map
        Prod.fst
      = ["result_id", "mask", "contours", "metrics", "inference_time_ms",
         "total_time_ms", "output_paths", "metadata"] ∧
    (segment_from_numpy predict volume spacing itms2).map Prod.fst
      = ["mask", "contours", "metrics", "inference_time_ms"] := by
  exact ⟨rfl, rfl⟩

/-- C6: `load_dicom` answers a path that is neither an existing file nor an
existing directory with the not-found error, in every backend state; and with
the imaging backend available it answers a directory with zero parseable DICOM
files with the empty-series configuration error.  Both are `Except.error`
results, so no volume is returned and the error propagates to the caller.
(When the backend itself is unavailable, the source substitutes mock data for
a directory by design — the spec's separate fallback policy.) -/
theorem load_dicom_error_paths (mockV : List (List ℚ)) (mockMd : Metadata) (wc ww : ℚ) :
    (∀ b : Bool, load_dicom b mockV mockMd wc ww FSPath.missing
        = Except.error LoadError.notFound) ∧
    (∀ entries : List FSEntry, parseableFiles entries = [] →
      load_dicom true mockV mockMd wc ww (FSPath.dir entries)
        = Except.error LoadError.emptySeries) := by
  refine ⟨fun b => rfl, fun entries h => ?_⟩
  simp [load_dicom, load_dicom_series, h]

/-- Witness for C6: the error paths at a concrete missing path and a concrete
empty directory. -/
theorem load_dicom_error_paths_witness :
    load_dicom true [] mockMetadata 40 400 FSPath.missing
      = Except.error LoadError.notFound ∧
    load_dicom true [] mockMetadata 40 400 (FSPath.dir [])
      = Except.error LoadError.emptySeries :=
  ⟨(load_dicom_error_paths [] mockMetadata 40 400).1 true,
   (load_dicom_error_paths [] mockMetadata 40 400).2 [] rfl⟩

/-- C7 counterexample: for the spec scenario — 2×2×2 ground truth all ones,
prediction all zeros — `calculate_pixel_accuracy` returns 0, not the claimed
0.5: every voxel of the binarised prediction differs from the ground truth,
so `np.sum(gt == pred) = 0`. -/
theorem pixel_accuracy_degenerate_cex :
    calculate_pixel_accuracy ones2x2x2 zeros2x2x2 = 0 ∧
    (0 : ℚ) ≠ 1/2 := by
  constructor
  · norm_num [calculate_pixel_accuracy, ones2x2x2, zeros2x2x2, binarize, binQ,
      pixelAccDen, List.replicate, List.zipWith]
  · norm_num

/-- C7 (amended): for every pair of nonempty arrays — all-zero masks included —
each metric's denominator is strictly positive (the smoothed ones by the
smoothing constant, pixel accuracy by nonemptiness), so no metric divides by
zero; and on the 2×2×2 scenario with ground truth all ones and prediction all
zeros, dice, iou and sensitivity are ≈ 0 (positive but below 10⁻⁶),
specificity is exactly 1, and pixel accuracy is exactly 0 (not 0.5). -/
theorem metrics_smoothing_and_degenerate :
    (∀ gt pred : List ℚ, gt ≠ [] →
      0 < diceDen gt pred smoothDefault ∧ 0 < iouDen gt pred smoothDefault ∧
      0 < sensDen gt pred smoothDefault ∧ 0 < specDen gt pred smoothDefault ∧
      0 < pixelAccDen gt) ∧
    (0 ≤ calculate_dice ones2x2x2 zeros2x2x2 smoothDefault ∧
     calculate_dice ones2x2x2 zeros2x2x2 smoothDefault < 1/1000000) ∧
    (0 ≤ calculate_iou ones2x2x2 zeros2x2x2 smoothDefault ∧
     calculate_iou ones2x2x2 zeros2x2x2 smoothDefault < 1/1000000) ∧
    (0 ≤ calculate_sensitivity ones2x2x2 zeros2x2x2 smoothDefault ∧
     calculate_sensitivity ones2x2x2 zeros2x2x2 smoothDefault < 1/1000000) ∧
    calculate_specificity ones2x2x2 zeros2x2x2 smoothDefault = 1 ∧
    calculate_pixel_accuracy ones2x2x2 zeros2x2x2 = 0 := by
  refine ⟨?_, ?_, ?_, ?_, ?_, ?_⟩
  · intro gt pred hgt
    have hs : (0:ℚ) < smoothDefault := by norm_num [smoothDefault]
    have h1 := binarize_sum_nonneg gt
    have h2 := binarize_sum_nonneg pred
    refine ⟨by unfold diceDen; linarith, ?_, ?_, ?_, ?_⟩
    · have := inter_sum_le_right gt pred
      unfold iouDen; linarith
    · have ha := sum_zipWith_binarize_nonneg (· * ·)
        (fun a b => mul_nonneg (binQ_nonneg a) (binQ_nonneg b)) gt pred
      have hb := sum_zipWith_binarize_nonneg (fun a b => a * (1 - b))
        (fun a b => mul_nonneg (binQ_nonneg a) (by linarith [binQ_le_one b])) gt pred
      unfold sensDen; linarith
    · have ha := sum_zipWith_binarize_nonneg (fun a b => (1 - a) * (1 - b))
        (fun a b => mul_nonneg (by linarith [binQ_le_one a])
          (by linarith [binQ_le_one b])) gt pred
      have hb := sum_zipWith_binarize_nonneg (fun a b => (1 - a) * b)
        (fun a b => mul_nonneg (by linarith [binQ_le_one a]) (binQ_nonneg b)) gt pred
      unfold specDen; linarith
    · unfold pixelAccDen
      have : 0 < gt.length := List.length_pos.mpr hgt
      exact_mod_cast this
  · norm_num [calculate_dice, diceDen, ones2x2x2, zeros2x2x2, binarize, binQ,
      smoothDefault, List.replicate, List.zipWith]
  · norm_num [calculate_iou, iouDen, ones2x2x2, zeros2x2x2, binarize, binQ,
      smoothDefault, List.replicate, List.zipWith]
  · norm_num [calculate_sensitivity, sensDen, ones2x2x2, zeros2x2x2, binarize, binQ,
      smoothDefault, List.replicate, List.zipWith]
  · norm_num [calculate_specificity, specDen, ones2x2x2, zeros2x2x2, binarize, binQ,
      smoothDefault, List.replicate, List.zipWith]
  · norm_num [calculate_pixel_accuracy, ones2x2x2, zeros2x2x2, binarize, binQ,
      pixelAccDen, List.replicate, List.zipWith]

/-- Witness for C7: the denominator positivity at a concrete nonempty pair. -/
theorem metrics_smoothing_and_degenerate_witness :
    0 < diceDen [1] [0] smoothDefault ∧ 0 < iouDen [1] [0] smoothDefault ∧
    0 < sensDen [1] [0] smoothDefault ∧ 0 < specDen [1] [0] smoothDefault ∧
    0 < pixelAccDen [1] :=
  metrics_smoothing_and_degenerate.1 [1] [0] (by simp)

/-- C8: for every 3-D binary mask and every positive `num_slices`, the slice
summary of `extract_contours` lists, in strictly increasing slice order, a
record for exactly those slice indices below the depth that are multiples of
the stride `max(1, depth // num_slices)` and hold at least one foreground
voxel; each record carries `has_liver = true` and `liver_area` equal to the
slice's foreground voxel count, and the omitted `num_slices` defaults to the
depth. -/
theorem extract_contours_characterization (mask : List (List Bool)) (ns : ℕ)
    (hns : 0 < ns) :
    List.Pairwise (fun r s => r.slice_index < s.slice_index)
      (extract_contours mask (some ns)).slices ∧
    (∀ r : SliceRecord, r ∈ (extract_contours mask (some ns)).slices ↔
      (max 1 (mask.length / ns) ∣ r.slice_index ∧ r.slice_index < mask.length ∧
       r.has_liver = true ∧
       ∃ s, mask.get? r.slice_index = some s ∧ 0 < s.count true ∧
         r.liver_area = s.count true)) ∧
    extract_contours mask none = extract_contours mask (some mask.length) := by
  have hpos : 0 < ns := hns
  have hstep : 0 < max 1 (mask.length / ns) := le_max_left _ _
  refine ⟨?_, ?_, rfl⟩
  · exact (pyRange_pairwise _ _ hstep).filterMap (sliceFor mask)
      (fun a b hab r hr r' hr' => by
        rw [Option.mem_def] at hr hr'
        rw [(sliceFor_eq_some.mp hr).1, (sliceFor_eq_some.mp hr').1]
        exact hab)
  · intro r
    simp only [extract_contours, List.mem_filterMap]
    constructor
    · rintro ⟨i, hi, hf⟩
      obtain ⟨hidx, hl, s, hs, hcount, ha⟩ := sliceFor_eq_some.mp hf
      subst hidx
      obtain ⟨hdvd, hlt⟩ := (mem_pyRange hstep).mp hi
      exact ⟨hdvd, hlt, hl, s, hs, hcount, ha⟩
    · rintro ⟨hdvd, hlt, hl, s, hs, hcount, ha⟩
      refine ⟨r.slice_index, (mem_pyRange hstep).mpr ⟨hdvd, hlt⟩, ?_⟩
      exact sliceFor_eq_some.mpr ⟨rfl, hl, s, hs, hcount, ha⟩

/-- Witness for C8: the summary ordering at a concrete one-slice mask with
`num_slices = 1`. -/
theorem extract_contours_characterization_witness :
    List.Pairwise (fun r s => r.slice_index < s.slice_index)
      (extract_contours [[true]] (some 1)).slices :=
  (extract_contours_characterization [[true]] 1 (by norm_num)).1

/-- C9 counterexample: two calls whose `uuid4().hex` draws are distinct
32-character hex strings agreeing on the first 12 characters produce the
*same* result id — `generate_result_id` truncates the uuid to 12 hex digits
and enforces no uniqueness, so "unique per call" is not guaranteed by the
code. -/
theorem result_id_collision :
    generate_result_id "0123456789abcdef0123456789abcdef"
      = generate_result_id "0123456789ab00000000000000000000" ∧
    ("0123456789abcdef0123456789abcdef" : String)
      ≠ "0123456789ab00000000000000000000" := by
  exact ⟨by decide, by decide⟩

/-- C9 (amended): every result id is the fixed prefix `seg_` followed by the
first 12 characters of the uuid hex draw — 12 lowercase hex characters, since
`uuid4().hex` is 32 lowercase hex characters — and ids collide exactly when
two draws share those 12 characters (uniqueness is whp, not enforced);
`save_results` writes the three artifacts into the directory named by the
result id under the output root, returns exactly 3 entries with suffixes
`mask.npy`, `contours.json`, `metrics.json`, and two calls with distinct
result ids write to entirely disjoint paths. -/
theorem save_results_layout (hex1 hex2 : String) (root : List String)
    (h1 : hex1.data.length = 32) (h1h : ∀ c ∈ hex1.data, isLowerHex c = true)
    (hne : generate_result_id hex1 ≠ generate_result_id hex2) :
    ((generate_result_id hex1).data = "seg_".data ++ hex1.data.take 12 ∧
     (hex1.data.take 12).length = 12 ∧
     ∀ c ∈ hex1.data.take 12, isLowerHex c = true) ∧
    (save_results root (generate_result_id hex1)).length = 3 ∧
    (save_results root (generate_result_id hex1)).map Prod.fst
      = ["mask_npy", "contours_json", "metrics_json"] ∧
    (∀ p ∈ (save_results root (generate_result_id hex1)).map Prod.snd,
      ∃ fname, p = root ++ [generate_result_id hex1, fname] ∧
        fname ∈ ["mask.npy", "contours.json", "metrics.json"]) ∧
    (∀ p ∈ (save_results root (generate_result_id hex1)).map Prod.snd,
      ∀ q ∈ (save_results root (generate_result_id hex2)).map Prod.snd, p ≠ q) := by
  refine ⟨⟨rfl, ?_, ?_⟩, rfl, rfl, ?_, ?_⟩
  · rw [List.length_take, h1]
    omega
  · exact fun c hc => h1h c (List.take_subset _ _ hc)
  · intro p hp
    simp only [save_results, List.map_cons, List.map_nil, List.mem_cons,
      List.not_mem_nil, or_false] at hp
    rcases hp with rfl | rfl | rfl
    · exact ⟨"mask.npy", rfl, by simp⟩
    · exact ⟨"contours.json", rfl, by simp⟩
    · exact ⟨"metrics.json", rfl, by simp⟩
  · intro p hp q hq
    simp only [save_results, List.map_cons, List.map_nil, List.mem_cons,
      List.not_mem_nil, or_false] at hp hq
    rcases hp with rfl | rfl | rfl <;> rcases hq with rfl | rfl | rfl <;>
      exact path_ne_of_rid_ne hne

/-- Witness for C9: the layout facts at two concrete distinct uuid draws. -/
theorem save_results_layout_witness :
    (save_results [] (generate_result_id "00000000000000000000000000000000")).map Prod.fst
      = ["mask_npy", "contours_json", "metrics_json"] :=
  (save_results_layout "00000000000000000000000000000000"
    "11111111111111111111111111111111" [] (by decide) (by decide) (by decide)).2.2.1

/-- C10: `calculate_dice` and `calculate_iou` are exactly symmetric in their
two mask arguments (at the default smoothing constant, as called by the
pipeline): the intersection term is symmetric elementwise and the denominators
are symmetric sums. -/
theorem dice_iou_symmetric (A B : List ℚ) :
    calculate_dice A B smoothDefault = calculate_dice B A smoothDefault ∧
    calculate_iou A B smoothDefault = calculate_iou B A smoothDefault := by
  constructor
  · unfold calculate_dice diceDen
    rw [List.zipWith_comm_of_comm _ mul_comm]
    ring_nf
  · unfold calculate_iou iouDen
    rw [List.zipWith_comm_of_comm _ mul_comm]
    ring_nf
